import Mathlib

/-!
Verification of the SpecAI CLI (src/src/index.ts) against its natural-language
specification.  The source file contains two near-identical drafts of the same
CLI separated by a document marker; we embed both: the first draft's handlers
are suffixed `V1` (or carry no suffix when the drafts agree), the second
draft's `V2`.

The embedding is shallow: the on-disk project layout is an explicit `FS`
record, console input and the external text-generation service are inputs
supplied through argument records, and each CLI handler is a pure function
from the filesystem state and those inputs to an outcome (an optional error —
`process.exit(1)` or an uncaught exception — together with the resulting
filesystem state).  JavaScript string primitives (`trim`, `toLowerCase`,
`parseInt`) are modelled over `List Char` with ASCII semantics, which covers
every string the tool itself produces.
-/

/-! ## JavaScript string primitives -/

/-- Whitespace as recognised by the model of JS `trim` (ASCII subset). -/
def isWs (c : Char) : Bool :=
  c == ' ' || c == '\t' || c == '\n' || c == '\r'

/-- Drop whitespace from both ends of a character list (JS `String.prototype.trim`). -/
def trimData (l : List Char) : List Char :=
  ((l.dropWhile isWs).reverse.dropWhile isWs).reverse

/-- JS `s.trim()`: drop leading and trailing whitespace. -/
def jsTrim (s : String) : String :=
  ⟨trimData s.data⟩

/-- Trailing-whitespace-only normalization (used to state the spec's
"up to trailing-whitespace normalization" clause, not by the code itself). -/
def jsTrimEnd (s : String) : String :=
  ⟨((s.data.reverse.dropWhile isWs).reverse : List Char)⟩

/-- JS `toLowerCase` on one character (ASCII range). -/
def charToLower (c : Char) : Char :=
  if 65 ≤ c.toNat ∧ c.toNat ≤ 90 then Char.ofNat (c.toNat + 32) else c

/-- JS `s.toLowerCase()` (ASCII semantics). -/
def jsToLower (s : String) : String :=
  ⟨s.data.map charToLower⟩

/-- Decimal digit test. -/
def isDigitCh (c : Char) : Bool :=
  decide ('0' ≤ c ∧ c ≤ '9')

/-- Leading run of decimal digits. -/
def takeDigits (l : List Char) : List Char :=
  l.takeWhile isDigitCh

/-- Value of a digit string. -/
def digitsToNat (l : List Char) : Nat :=
  l.foldl (fun acc c => acc * 10 + (c.toNat - 48)) 0

/-- JS `parseInt(s, 10)` on an already-trimmed string: optional sign, then the
longest digit run; `none` stands for `NaN`. -/
def jsParseInt (s : String) : Option Int :=
  let core : List Char → Option Int := fun l =>
    let ds := takeDigits l
    if ds.isEmpty then none else some (digitsToNat ds : Int)
  match s.data with
  | '-' :: rest => (core rest).map (fun n => -n)
  | '+' :: rest => core rest
  | l => core l

/-! ## Data model: the on-disk project layout (spec §3, §6) -/

/-- The `approved` object of `specai/state.json`, modelled as the JSON
key-value list the code writes and reads. -/
abbrev ApprovedMap := List (String × Bool)

/-- Reading `state.approved[k]` in JS: a missing key is `undefined`, which is
falsy, so the lookup defaults to `false`. -/
def lookupApproved (m : ApprovedMap) (k : String) : Bool :=
  match m.lookup k with
  | some b => b
  | none => false

/-- JS assignment `state.approved[k] = v`: update the key in place, or add it. -/
def setKey : ApprovedMap → String → Bool → ApprovedMap
  | [], k, v => [(k, v)]
  | (k', v') :: rest, k, v =>
      if k' = k then (k, v) :: rest else (k', v') :: setKey rest k v

/-- `specai/state.json`. -/
structure ProjectState where
  phase : String
  approved : ApprovedMap
deriving DecidableEq, Repr

/-- `.specai/config.json`. -/
structure ProjectConfig where
  name : String
  description : String
  planner : String
  coder : String
deriving DecidableEq, Repr

/-- The slice of the filesystem the tool touches, for one project directory:
the two metadata directories and the three artifacts inside them.
`none` means the file does not exist. -/
structure FS where
  specaiDir : Bool
  dotSpecaiDir : Bool
  configJson : Option ProjectConfig
  constitutionMd : Option String
  stateJson : Option ProjectState
deriving DecidableEq, Repr

/-- Physical well-formedness: a file can only exist inside an existing
directory (`.specai/config.json` inside `.specai/`, the other two inside
`specai/`). -/
def FS.wf (fs : FS) : Prop :=
  (fs.configJson.isSome → fs.dotSpecaiDir = true) ∧
  (fs.constitutionMd.isSome → fs.specaiDir = true) ∧
  (fs.stateJson.isSome → fs.specaiDir = true)

/-- The six workflow phases, in order (README: Constitution → Spec → Plan →
Tasks → Implement → Review). -/
def workflowPhases : List String :=
  ["constitution", "spec", "plan", "tasks", "implement", "review"]

/-! ## Defaults written by `handleInit` -/

def defaultConfig (name description : String) : ProjectConfig :=
  { name := name
    description := description
    planner := "qwen2.5:7b"
    coder := "deepseek-coder:6.7b" }

def defaultConstitutionText : String :=
  "# Constitution\n\nThis document defines the governing assumptions, constraints, and worldview\nfor the project.\n\nIt is expected to evolve before being approved and locked.\n"

def defaultState : ProjectState :=
  { phase := "constitution"
    approved :=
      [("constitution", false), ("spec", false), ("plan", false), ("tasks", false)] }

/-! ## `handleInit` -/

inductive InitError where
  | missingPathArg
  | alreadyInitialized
  | fileExists (which : String)
deriving DecidableEq, Repr

/-- Inputs consumed by `handleInit`: the CLI arguments, whether the target
directory already exists, and the interactive answers. -/
structure InitArgs where
  pathArg : Option String
  force : Bool
  noGit : Bool
  targetDirExists : Bool
  basenameTarget : String
  askedName : String
  description : String
deriving DecidableEq, Repr

structure InitOutcome where
  error : Option InitError
  fs : FS
deriving DecidableEq, Repr

/-- `writeFileSafe`: throw if the file exists and `force` is not set. -/
def writeFileSafeFails (existing : Option α) (force : Bool) : Bool :=
  existing.isSome && !force

/-- Embedding of `handleInit` (identical in both drafts).  Follows the source
order: path-argument check, already-initialized check on the two metadata
directories, `ensureDir` on both, then the three `writeFileSafe` calls
(config, constitution scaffold, state).  Git initialization is best-effort
and touches none of the modelled files, so it is omitted. -/
def handleInit (fs : FS) (a : InitArgs) : InitOutcome :=
  match a.pathArg with
  | none => ⟨some .missingPathArg, fs⟩
  | some _ =>
    if (fs.specaiDir || fs.dotSpecaiDir) && !a.force then
      ⟨some .alreadyInitialized, fs⟩
    else
      let projectName := if a.targetDirExists then a.askedName else a.basenameTarget
      let fs1 : FS := { fs with specaiDir := true, dotSpecaiDir := true }
      if writeFileSafeFails fs1.configJson a.force then
        ⟨some (.fileExists "config.json"), fs1⟩
      else
        let fs2 : FS :=
          { fs1 with configJson := some (defaultConfig projectName a.description) }
        if writeFileSafeFails fs2.constitutionMd a.force then
          ⟨some (.fileExists "constitution.md"), fs2⟩
        else
          let fs3 : FS := { fs2 with constitutionMd := some defaultConstitutionText }
          if writeFileSafeFails fs3.stateJson a.force then
            ⟨some (.fileExists "state.json"), fs3⟩
          else
            ⟨none, { fs3 with stateJson := some defaultState }⟩

/-! ## `handleStatus` -/

/-- Embedding of `handleStatus`: report initialized iff both metadata
directories exist; the handler performs no writes. -/
def handleStatus (fs : FS) : FS × Bool :=
  (fs, fs.specaiDir && fs.dotSpecaiDir)

/-! ## The external generation service and the constitution edit workflow -/

/-- One invocation of the generation endpoint, as seen from the tool: either a
completion string, or any transport/non-success/malformed-payload failure. -/
inductive QwenOutcome where
  | ok (response : String)
  | failure
deriving DecidableEq, Repr

inductive ConstError where
  | projectNotFound
  | phaseLocked
  | missingConfig
  | missingDocument
  | generationFailed
deriving DecidableEq, Repr

/-- `callQwen`: on success the response is trimmed; a transport error, a
non-ok HTTP response (first draft) or a malformed payload (second draft,
where `parsed.response.trim()` throws) is fatal for the invocation. -/
def callQwen (_prompt : String) (o : QwenOutcome) : Except ConstError String :=
  match o with
  | .ok r => .ok (jsTrim r)
  | .failure => .error .generationFailed

/-- The confirmed append: `currentText.trim() + "\n\n" + text + "\n"`
(identical in all three confirm branches of the two drafts). -/
def appendDoc (currentText text : String) : String :=
  jsTrim currentText ++ "\n\n" ++ text ++ "\n"

/-- `choose`: `parseInt(answer, 10)`, `NaN ? -1 : idx - 1`.  The answer has
already been trimmed by `ask`. -/
def chooseIndex (answer : String) : Int :=
  match jsParseInt (jsTrim answer) with
  | none => -1
  | some i => i - 1

/-- Interactive inputs of the first draft's `handleConstitution`: the menu
answer, the free-text inputs, the two confirm answers, and the outcome of
each potential generation request. -/
structure ConstArgsV1 where
  summaryQwen : QwenOutcome
  choiceAnswer : String
  overviewInput : String
  sectionQwen : QwenOutcome
  applyAnswer : String
  questionsQwen : QwenOutcome
  notesInput : String
  appendAnswer : String
deriving DecidableEq, Repr

/-- Interactive inputs of the second draft's `handleConstitution`. -/
structure ConstArgsV2 where
  proposalQwen : QwenOutcome
  applyAnswer : String
deriving DecidableEq, Repr

/-- Outcome of an edit-workflow invocation: the error (if the process exited
non-zero), the resulting filesystem, how many generation requests were
submitted, and whether a proposal was applied to the document. -/
structure ConstOutcome where
  error : Option ConstError
  fs : FS
  qwenCalls : Nat
  applied : Bool
deriving DecidableEq, Repr

def summaryPromptV1 (config : ProjectConfig) (currentText : String) : String :=
  "\nProject: " ++ config.name ++ "\nDescription: " ++ config.description ++
    "\n\nConstitution:\n---\n" ++ currentText ++
    "\n---\n\nSummarize the constitution at a high level in 5 bullet points.\nIf information is missing, say what is missing.\n"

def proposalPromptV1 (input : String) : String :=
  "\nConvert the following into a clear 'System Overview' section for a constitution.\nWrite concise markdown.\n\nInput:\n" ++
    input ++ "\n"

def questionsPromptV1 (config : ProjectConfig) (currentText : String) : String :=
  "\nProject: " ++ config.name ++ "\nDescription: " ++ config.description ++
    "\n\nConstitution:\n---\n" ++ currentText ++
    "\n---\n\nAsk up to 5 clarifying questions needed to better understand the system.\nQuestions only.\n"

def promptV2 (currentText : String) : String :=
  "\nYou are helping refine a project constitution.\n\nCurrent constitution:\n---\n" ++
    currentText ++
    "\n---\n\nPropose ONE small improvement or missing rule.\nReturn only the proposed markdown section.\nDo not explain.\n"

/-- Embedding of the first draft's `handleConstitution`: state-file existence
check, lock check, config load, document read, AI summary, menu, then one of
the four sub-actions.  `ask` trims every interactive answer before it is
used. -/
def handleConstitutionV1 (fs : FS) (a : ConstArgsV1) : ConstOutcome :=
  match fs.stateJson with
  | none => ⟨some .projectNotFound, fs, 0, false⟩
  | some state =>
    if lookupApproved state.approved "constitution" then
      ⟨some .phaseLocked, fs, 0, false⟩
    else
      match fs.configJson with
      | none => ⟨some .missingConfig, fs, 0, false⟩
      | some config =>
        match fs.constitutionMd with
        | none => ⟨some .missingDocument, fs, 0, false⟩
        | some currentText =>
          match callQwen (summaryPromptV1 config currentText) a.summaryQwen with
          | .error e => ⟨some e, fs, 1, false⟩
          | .ok _summary =>
            let choice := chooseIndex a.choiceAnswer
            if choice = 0 then
              match callQwen (proposalPromptV1 (jsTrim a.overviewInput)) a.sectionQwen with
              | .error e => ⟨some e, fs, 2, false⟩
              | .ok sect =>
                if jsToLower (jsTrim a.applyAnswer) = "y" then
                  ⟨none, { fs with constitutionMd := some (appendDoc currentText sect) },
                    2, true⟩
                else
                  ⟨none, fs, 2, false⟩
            else if choice = 1 then
              match callQwen (questionsPromptV1 config currentText) a.questionsQwen with
              | .error e => ⟨some e, fs, 2, false⟩
              | .ok _questions => ⟨none, fs, 2, false⟩
            else if choice = 2 then
              if jsToLower (jsTrim a.appendAnswer) = "y" then
                ⟨none,
                  { fs with
                    constitutionMd := some (appendDoc currentText (jsTrim a.notesInput)) },
                  1, true⟩
              else
                ⟨none, fs, 1, false⟩
            else
              ⟨none, fs, 1, false⟩

/-- Embedding of the second draft's `handleConstitution`: state-file existence
check, lock check, document read, one generation request, one confirm
question.  The confirm answer is read with `rl.question` directly, so it is
NOT trimmed before `toLowerCase() === "y"`. -/
def handleConstitutionV2 (fs : FS) (a : ConstArgsV2) : ConstOutcome :=
  match fs.stateJson with
  | none => ⟨some .projectNotFound, fs, 0, false⟩
  | some state =>
    if lookupApproved state.approved "constitution" then
      ⟨some .phaseLocked, fs, 0, false⟩
    else
      match fs.constitutionMd with
      | none => ⟨some .missingDocument, fs, 0, false⟩
      | some currentText =>
        match callQwen (promptV2 currentText) a.proposalQwen with
        | .error e => ⟨some e, fs, 1, false⟩
        | .ok proposal =>
          if jsToLower a.applyAnswer = "y" then
            ⟨none, { fs with constitutionMd := some (appendDoc currentText proposal) },
              1, true⟩
          else
            ⟨none, fs, 1, false⟩

/-! ## `approve constitution` and `unlock constitution` -/

structure SimpleOutcome where
  error : Option ConstError
  fs : FS
deriving DecidableEq, Repr

/-- Embedding of `handleApproveConstitution` (identical in both drafts):
state-file existence check, then `state.approved.constitution = true` and a
full rewrite of the state record. -/
def handleApproveConstitution (fs : FS) : SimpleOutcome :=
  match fs.stateJson with
  | none => ⟨some .projectNotFound, fs⟩
  | some state =>
    ⟨none,
      { fs with
        stateJson := some { state with approved := setKey state.approved "constitution" true } }⟩

/-- Embedding of `handleUnlockConstitution` (identical in both drafts). -/
def handleUnlockConstitution (fs : FS) : SimpleOutcome :=
  match fs.stateJson with
  | none => ⟨some .projectNotFound, fs⟩
  | some state =>
    ⟨none,
      { fs with
        stateJson := some { state with approved := setKey state.approved "constitution" false } }⟩

/-- The `approved.constitution` flag as read back from disk (false when no
state record exists, matching JS truthiness). -/
def constitutionFlag (fs : FS) : Bool :=
  match fs.stateJson with
  | none => false
  | some st => lookupApproved st.approved "constitution"

/-! ## Concrete example inputs shared by the witnesses -/

/-- A project whose constitution is approved (locked). -/
def lockedFS : FS :=
  { specaiDir := true
    dotSpecaiDir := true
    configJson := some (defaultConfig "demo" "a demo project")
    constitutionMd := some "# Constitution\n"
    stateJson := some
      { phase := "constitution"
        approved :=
          [("constitution", true), ("spec", false), ("plan", false), ("tasks", false)] } }

/-- A freshly initialized project (unlocked). -/
def freshFS : FS :=
  { specaiDir := true
    dotSpecaiDir := true
    configJson := some (defaultConfig "demo" "a demo project")
    constitutionMd := some "# Constitution\n"
    stateJson := some defaultState }

def exArgsV1 : ConstArgsV1 :=
  { summaryQwen := .ok "a summary"
    choiceAnswer := "1"
    overviewInput := "an overview"
    sectionQwen := .ok "## Overview"
    applyAnswer := "y"
    questionsQwen := .ok "questions"
    notesInput := "a note"
    appendAnswer := "y" }

def exArgsV2 : ConstArgsV2 :=
  { proposalQwen := .ok "## New Rule\nBe concise."
    applyAnswer := "y" }

/-- A project whose document carries leading and trailing whitespace. -/
def c3FS : FS :=
  { specaiDir := true
    dotSpecaiDir := true
    configJson := some (defaultConfig "demo" "a demo project")
    constitutionMd := some " x      "
    stateJson := some defaultState }

/-- A project whose document carries leading whitespace only. -/
def c4FS : FS :=
  { specaiDir := true
    dotSpecaiDir := true
    configJson := some (defaultConfig "demo" "a demo project")
    constitutionMd := some " x"
    stateJson := some defaultState }

/-! ## Shared helper lemmas -/

lemma lookup_setKey (m : ApprovedMap) (k : String) (v : Bool) :
    (setKey m k v).lookup k = some v := by
  induction m with
  | nil => simp [setKey]
  | cons hd tl ih =>
    obtain ⟨k', v'⟩ := hd
    by_cases h : k' = k
    · simp [setKey, h, List.lookup]
    · have hne : (k == k') = false := beq_eq_false_iff_ne.mpr (Ne.symm h)
      simp [setKey, h, List.lookup, hne, ih]

lemma lookupApproved_setKey (m : ApprovedMap) (k : String) (v : Bool) :
    lookupApproved (setKey m k v) k = v := by
  simp [lookupApproved, lookup_setKey]

lemma setKey_setKey (m : ApprovedMap) (k : String) (v w : Bool) :
    setKey (setKey m k v) k w = setKey m k w := by
  induction m with
  | nil => simp [setKey]
  | cons hd tl ih =>
    obtain ⟨k', v'⟩ := hd
    by_cases h : k' = k
    · simp [setKey, h]
    · simp [setKey, h, ih]

lemma isPrefixOf_append (l r : List Char) : List.isPrefixOf l (l ++ r) = true := by
  induction l with
  | nil => simp [List.isPrefixOf]
  | cons a t ih => simp [List.isPrefixOf, ih]

lemma map_charToLower_eq_singleton {l : List Char} (h : l.map charToLower = ['y']) :
    ∃ c, l = [c] ∧ charToLower c = 'y' := by
  match l with
  | [] => simp at h
  | [c] => simp at h; exact ⟨c, rfl, h⟩
  | a :: b :: t => simp at h

lemma isWs_false_of_ge {c : Char} (h : 65 ≤ c.toNat) : isWs c = false := by
  simp only [isWs, Bool.or_eq_false_iff, beq_eq_false_iff_ne]
  refine ⟨⟨⟨?_, ?_⟩, ?_⟩, ?_⟩ <;> rintro rfl <;> exact absurd h (by decide)

lemma charToLower_y_not_ws {c : Char} (h : charToLower c = 'y') : isWs c = false := by
  unfold charToLower at h
  split at h
  · exact isWs_false_of_ge (by omega)
  · rw [h]; decide

lemma trimData_single {c : Char} (h : isWs c = false) : trimData [c] = [c] := by
  simp [trimData, List.dropWhile, h]

lemma jsToLower_y_trim {s : String} (h : jsToLower s = "y") : jsTrim s = s := by
  have hd : s.data.map charToLower = ['y'] := by
    have := congrArg String.data h
    simpa [jsToLower] using this
  obtain ⟨c, hc, hcy⟩ := map_charToLower_eq_singleton hd
  have hw := charToLower_y_not_ws hcy
  cases s with
  | mk l =>
    simp only at hc
    subst hc
    simp [jsTrim, trimData_single hw]

lemma jsToLower_trim_of_y {s : String} (h : jsToLower s = "y") :
    jsToLower (jsTrim s) = "y" := by
  rw [jsToLower_y_trim h]; exact h

/-- Outcome characterization of the first draft's edit workflow: either no
proposal was applied and the filesystem is untouched, or a proposal was
applied after a "y" confirmation in the choice-0 or choice-2 branch, and only
the constitution document was rewritten. -/
lemma v1_cases (fs : FS) (a1 : ConstArgsV1) :
    ((handleConstitutionV1 fs a1).applied = false ∧
      (handleConstitutionV1 fs a1).fs = fs) ∨
    ((handleConstitutionV1 fs a1).applied = true ∧
      ((chooseIndex a1.choiceAnswer = 0 ∧ jsToLower (jsTrim a1.applyAnswer) = "y") ∨
        (chooseIndex a1.choiceAnswer = 2 ∧ jsToLower (jsTrim a1.appendAnswer) = "y")) ∧
      ∃ d : String,
        (handleConstitutionV1 fs a1).fs = { fs with constitutionMd := some d }) := by
  obtain ⟨sd, dd, cj, cm, sj⟩ := fs
  simp only [handleConstitutionV1]
  (repeat' split) <;>
    (first
      | exact Or.inl ⟨rfl, rfl⟩
      | exact Or.inr ⟨rfl, Or.inl ⟨by assumption, by assumption⟩, _, rfl⟩
      | exact Or.inr ⟨rfl, Or.inr ⟨by assumption, by assumption⟩, _, rfl⟩)

/-- Outcome characterization of the second draft's edit workflow. -/
lemma v2_cases (fs : FS) (a2 : ConstArgsV2) :
    ((handleConstitutionV2 fs a2).applied = false ∧
      (handleConstitutionV2 fs a2).fs = fs) ∨
    ((handleConstitutionV2 fs a2).applied = true ∧
      jsToLower a2.applyAnswer = "y" ∧
      ∃ d : String,
        (handleConstitutionV2 fs a2).fs = { fs with constitutionMd := some d }) := by
  obtain ⟨sd, dd, cj, cm, sj⟩ := fs
  simp only [handleConstitutionV2]
  (repeat' split) <;>
    (first
      | exact Or.inl ⟨rfl, rfl⟩
      | exact Or.inr ⟨rfl, by assumption, _, rfl⟩)

/-- From the outcome characterization: everything but the constitution
document is untouched, and even it only when a proposal was applied. -/
lemma frame_of_cases {fs fs' : FS} {b : Bool}
    (h : (b = false ∧ fs' = fs) ∨
      (b = true ∧ ∃ d : String, fs' = { fs with constitutionMd := some d })) :
    fs' = { fs with constitutionMd := fs'.constitutionMd } ∧
      (b = false → fs' = fs) := by
  rcases h with ⟨hb, hfs⟩ | ⟨hb, d, hfs⟩
  · subst hfs; exact ⟨rfl, fun _ => rfl⟩
  · subst hfs hb
    refine ⟨rfl, ?_⟩
    intro hf
    simp at hf

/-! ## Claims -/

/-- **C1.** While `approved.constitution` is true, both drafts of the
`constitution` command fail with the PhaseLocked condition (non-zero exit)
having submitted zero generation requests, displayed no proposal and written
nothing: the filesystem — phase document and state record included — is
returned unchanged.  Approve and status leave the flag set; only the explicit
unlock operation clears it (and always succeeds on an existing project). -/
theorem C1_locked_edit_refused (fs : FS) (st : ProjectState)
    (a1 : ConstArgsV1) (a2 : ConstArgsV2)
    (hst : fs.stateJson = some st)
    (hlock : lookupApproved st.approved "constitution" = true) :
    handleConstitutionV1 fs a1 = ⟨some .phaseLocked, fs, 0, false⟩ ∧
    handleConstitutionV2 fs a2 = ⟨some .phaseLocked, fs, 0, false⟩ ∧
    constitutionFlag (handleApproveConstitution fs).fs = true ∧
    constitutionFlag (handleStatus fs).1 = true ∧
    (handleUnlockConstitution fs).error = none ∧
    constitutionFlag (handleUnlockConstitution fs).fs = false := by
  refine ⟨?_, ?_, ?_, ?_, ?_, ?_⟩
  · simp [handleConstitutionV1, hst, hlock]
  · simp [handleConstitutionV2, hst, hlock]
  · simp [handleApproveConstitution, hst, constitutionFlag, lookupApproved_setKey]
  · simp [handleStatus, constitutionFlag, hst, hlock]
  · simp [handleUnlockConstitution, hst]
  · simp [handleUnlockConstitution, hst, constitutionFlag, lookupApproved_setKey]

/-- Witness for C1 at a concrete locked project. -/
theorem C1_locked_edit_refused_witness :
    handleConstitutionV1 lockedFS exArgsV1 = ⟨some .phaseLocked, lockedFS, 0, false⟩ ∧
    handleConstitutionV2 lockedFS exArgsV2 = ⟨some .phaseLocked, lockedFS, 0, false⟩ ∧
    constitutionFlag (handleUnlockConstitution lockedFS).fs = false := by
  have h := C1_locked_edit_refused lockedFS
    { phase := "constitution"
      approved :=
        [("constitution", true), ("spec", false), ("plan", false), ("tasks", false)] }
    exArgsV1 exArgsV2 rfl (by decide)
  exact ⟨h.1, h.2.1, h.2.2.2.2.2⟩

/-- **C2.** `handleInit`: when either metadata directory already exists and
`--force` is absent, it fails with AlreadyInitialized and the filesystem is
untouched (no artifact written); with `--force` it succeeds and overwrites
all three artifacts together.  Moreover (on a physically well-formed
filesystem) no execution stops half-way: a successful run has written all
three artifacts and a failing run has written none. -/
theorem C2_init_atomic (fs : FS) (a : InitArgs) (p : String)
    (hp : a.pathArg = some p) (hwf : fs.wf) :
    ((fs.specaiDir = true ∨ fs.dotSpecaiDir = true) → a.force = false →
        handleInit fs a = ⟨some .alreadyInitialized, fs⟩) ∧
    (a.force = true →
        handleInit fs a =
          ⟨none,
            { specaiDir := true
              dotSpecaiDir := true
              configJson := some (defaultConfig
                (if a.targetDirExists then a.askedName else a.basenameTarget)
                a.description)
              constitutionMd := some defaultConstitutionText
              stateJson := some defaultState }⟩) ∧
    ((handleInit fs a).error = none →
        ((handleInit fs a).fs.configJson.isSome ∧
          (handleInit fs a).fs.constitutionMd = some defaultConstitutionText ∧
          (handleInit fs a).fs.stateJson = some defaultState)) ∧
    ((handleInit fs a).error ≠ none → (handleInit fs a).fs = fs) := by
  obtain ⟨hwf1, hwf2, hwf3⟩ := hwf
  rcases fs with ⟨sd, dd, cj, cm, sj⟩
  cases hf : a.force with
  | true =>
    refine ⟨?_, ?_, ?_, ?_⟩
    · intro _ hcontra; simp [hf] at hcontra
    · intro _
      simp [handleInit, hp, hf, writeFileSafeFails]
    · intro _
      simp [handleInit, hp, hf, writeFileSafeFails]
    · intro herr
      exact absurd (by simp [handleInit, hp, hf, writeFileSafeFails]) herr
  | false =>
    cases hsd : sd with
    | true =>
      refine ⟨?_, ?_, ?_, ?_⟩
      · intro _ _; simp [handleInit, hp, hf]
      · intro hcontra; simp at hcontra
      · intro herr; simp [handleInit, hp, hf] at herr
      · intro _; simp [handleInit, hp, hf]
    | false =>
      cases hdd : dd with
      | true =>
        refine ⟨?_, ?_, ?_, ?_⟩
        · intro _ _; simp [handleInit, hp, hf]
        · intro hcontra; simp at hcontra
        · intro herr; simp [handleInit, hp, hf] at herr
        · intro _; simp [handleInit, hp, hf]
      | false =>
        have hcj : cj = none := by
          cases cj with
          | none => rfl
          | some c => exact absurd (hwf1 (by simp)) (by simp [hdd])
        have hcm : cm = none := by
          cases cm with
          | none => rfl
          | some c => exact absurd (hwf2 (by simp)) (by simp [hsd])
        have hsj : sj = none := by
          cases sj with
          | none => rfl
          | some c => exact absurd (hwf3 (by simp)) (by simp [hsd])
        subst hcj hcm hsj
        refine ⟨?_, ?_, ?_, ?_⟩
        · rintro (h | h) _ <;> simp at h
        · intro hcontra; simp at hcontra
        · intro _
          simp [handleInit, hp, hf, writeFileSafeFails]
        · intro herr
          exact absurd (by simp [handleInit, hp, hf, writeFileSafeFails]) herr

/-- Witness for C2: on a directory already holding `specai/`, a forceless
init fails with AlreadyInitialized and changes nothing; a forced init on the
same directory succeeds and writes all three artifacts. -/
theorem C2_init_atomic_witness :
    handleInit ⟨true, false, none, none, none⟩
        ⟨some "proj", false, true, false, "proj", "proj", "demo"⟩ =
      ⟨some .alreadyInitialized, ⟨true, false, none, none, none⟩⟩ ∧
    (handleInit ⟨true, false, none, none, none⟩
        ⟨some "proj", true, true, false, "proj", "proj", "demo"⟩).error = none := by
  constructor
  · exact (C2_init_atomic ⟨true, false, none, none, none⟩
      ⟨some "proj", false, true, false, "proj", "proj", "demo"⟩ "proj" rfl
      (by constructor <;> simp)).1 (Or.inl rfl) rfl
  · have h := (C2_init_atomic ⟨true, false, none, none, none⟩
      ⟨some "proj", true, true, false, "proj", "proj", "demo"⟩ "proj" rfl
      (by constructor <;> simp)).2.1 rfl
    rw [h]

/-- **C3 counterexample.** On the document `" x      "` (leading space, six
trailing spaces) with proposal `"z"`, confirming shrinks the document from 8
to 5 characters, and the trailing-whitespace-normalized prior content `" x"`
is not a prefix of the new content (JS `trim()` also strips the leading
space): the claim as stated is false at this input. -/
theorem C3_counterexample :
    handleConstitutionV2 c3FS ⟨.ok "z", "y"⟩ =
      ⟨none, { c3FS with constitutionMd := some "x\n\nz\n" }, 1, true⟩ ∧
    ¬(("x\n\nz\n" : String).length > (" x      " : String).length ∧
        List.isPrefixOf (jsTrimEnd " x      ").data ("x\n\nz\n" : String).data = true) := by
  decide

/-- **C3 (amended).** Confirming a proposal `s` on document `t` (in every
confirm branch of both drafts) replaces the document with
`trim(t) ++ "\n\n" ++ s ++ "\n"`.  Hence the fully-trimmed prior content —
leading and trailing whitespace removed, since JS `trim()` strips both — is a
prefix of the new content, the new length is `(trim t).length + s.length + 3`,
and the length strictly increases whenever `t` carries no surrounding
whitespace; declining leaves the document byte-for-byte unchanged. -/
theorem C3_confirm_grows_decline_unchanged (fs : FS) (st : ProjectState)
    (cfg : ProjectConfig) (t : String)
    (hst : fs.stateJson = some st)
    (hlock : lookupApproved st.approved "constitution" = false)
    (hcfg : fs.configJson = some cfg)
    (hdoc : fs.constitutionMd = some t) :
    (∀ s : String,
        List.isPrefixOf (jsTrim t).data (appendDoc t s).data = true ∧
        (appendDoc t s).length = (jsTrim t).length + s.length + 3 ∧
        (jsTrim t = t → (appendDoc t s).length > t.length)) ∧
    (∀ a2 : ConstArgsV2, ∀ r : String, a2.proposalQwen = .ok r →
        (jsToLower a2.applyAnswer = "y" →
            (handleConstitutionV2 fs a2).fs.constitutionMd =
              some (appendDoc t (jsTrim r))) ∧
        (jsToLower a2.applyAnswer ≠ "y" → (handleConstitutionV2 fs a2).fs = fs)) ∧
    (∀ a1 : ConstArgsV1, ∀ r : String,
        a1.summaryQwen ≠ .failure → chooseIndex a1.choiceAnswer = 0 →
        a1.sectionQwen = .ok r →
        (jsToLower (jsTrim a1.applyAnswer) = "y" →
            (handleConstitutionV1 fs a1).fs.constitutionMd =
              some (appendDoc t (jsTrim r))) ∧
        (jsToLower (jsTrim a1.applyAnswer) ≠ "y" →
            (handleConstitutionV1 fs a1).fs = fs)) ∧
    (∀ a1 : ConstArgsV1,
        a1.summaryQwen ≠ .failure → chooseIndex a1.choiceAnswer = 2 →
        (jsToLower (jsTrim a1.appendAnswer) = "y" →
            (handleConstitutionV1 fs a1).fs.constitutionMd =
              some (appendDoc t (jsTrim a1.notesInput))) ∧
        (jsToLower (jsTrim a1.appendAnswer) ≠ "y" →
            (handleConstitutionV1 fs a1).fs = fs)) := by
  refine ⟨?_, ?_, ?_, ?_⟩
  · intro s
    have hlen : (appendDoc t s).length = (jsTrim t).length + s.length + 3 := by
      simp only [appendDoc, String.length_append]
      have h2 : ("\n\n" : String).length = 2 := rfl
      have h1 : ("\n" : String).length = 1 := rfl
      omega
    refine ⟨?_, hlen, ?_⟩
    · have hdata : (appendDoc t s).data =
          (jsTrim t).data ++
            (("\n\n" : String).data ++ (s.data ++ ("\n" : String).data)) := by
        simp [appendDoc, String.data_append]
      rw [hdata]
      exact isPrefixOf_append _ _
    · intro ht
      rw [hlen, ht]
      omega
  · intro a2 r hq
    constructor
    · intro hy
      simp [handleConstitutionV2, hst, hlock, hdoc, hq, callQwen, hy]
    · intro hn
      simp [handleConstitutionV2, hst, hlock, hdoc, hq, callQwen, hn]
  · intro a1 r hsum h0 hq
    cases hs : a1.summaryQwen with
    | failure => exact absurd hs hsum
    | ok rs =>
      constructor
      · intro hy
        simp [handleConstitutionV1, hst, hlock, hcfg, hdoc, hs, hq, callQwen, h0, hy]
      · intro hn
        simp [handleConstitutionV1, hst, hlock, hcfg, hdoc, hs, hq, callQwen, h0, hn]
  · intro a1 hsum h2
    cases hs : a1.summaryQwen with
    | failure => exact absurd hs hsum
    | ok rs =>
      constructor
      · intro hy
        simp [handleConstitutionV1, hst, hlock, hcfg, hdoc, hs, callQwen, h2, hy]
      · intro hn
        simp [handleConstitutionV1, hst, hlock, hcfg, hdoc, hs, callQwen, h2, hn]

/-- Witness for the amended C3 on a fresh project. -/
theorem C3_confirm_grows_decline_unchanged_witness :
    (handleConstitutionV2 freshFS exArgsV2).fs.constitutionMd =
      some (appendDoc "# Constitution\n" (jsTrim "## New Rule\nBe concise.")) ∧
    (handleConstitutionV2 freshFS ⟨.ok "## New Rule\nBe concise.", "n"⟩).fs = freshFS := by
  have h := C3_confirm_grows_decline_unchanged freshFS defaultState
    (defaultConfig "demo" "a demo project") "# Constitution\n" rfl (by decide) rfl rfl
  exact ⟨(h.2.1 exArgsV2 "## New Rule\nBe concise." rfl).1 (by decide),
    (h.2.1 ⟨.ok "## New Rule\nBe concise.", "n"⟩ "## New Rule\nBe concise." rfl).2 (by decide)⟩

/-- **C4 counterexample.** On the document `" x"` the confirmed edit writes
`"x\n\nz\n"`, not `" x\n\nz\n"`: JS `trim()` removes the leading space as
well, so "trims trailing whitespace from t" is not what the code does. -/
theorem C4_counterexample :
    (handleConstitutionV2 c4FS ⟨.ok "z", "y"⟩).fs.constitutionMd = some "x\n\nz\n" ∧
    ("x\n\nz\n" : String) ≠ jsTrimEnd " x" ++ "\n\n" ++ "z" ++ "\n" := by
  decide

/-- **C4 (amended).** The confirmed edit trims surrounding (leading and
trailing) whitespace from the existing text `t`, concatenates exactly one
blank line, then the accepted text, then a final newline, and writes the
whole document back (so the document always ends in a newline); in
particular, on the fresh document `"# Constitution\n"`, confirming the
proposal `"## New Rule\nBe concise."` yields exactly
`"# Constitution\n\n## New Rule\nBe concise.\n"`. -/
theorem C4_confirmed_edit_formula (fs : FS) (st : ProjectState)
    (cfg : ProjectConfig) (t : String)
    (hst : fs.stateJson = some st)
    (hlock : lookupApproved st.approved "constitution" = false)
    (hcfg : fs.configJson = some cfg)
    (hdoc : fs.constitutionMd = some t) :
    (∀ s : String, (appendDoc t s).data.getLast? = some '\n') ∧
    (∀ a2 : ConstArgsV2, ∀ r : String,
        a2.proposalQwen = .ok r → jsToLower a2.applyAnswer = "y" →
        (handleConstitutionV2 fs a2).fs.constitutionMd =
          some (jsTrim t ++ "\n\n" ++ jsTrim r ++ "\n")) ∧
    (∀ a1 : ConstArgsV1, ∀ r : String,
        a1.summaryQwen ≠ .failure → chooseIndex a1.choiceAnswer = 0 →
        a1.sectionQwen = .ok r → jsToLower (jsTrim a1.applyAnswer) = "y" →
        (handleConstitutionV1 fs a1).fs.constitutionMd =
          some (jsTrim t ++ "\n\n" ++ jsTrim r ++ "\n")) ∧
    handleConstitutionV2 freshFS exArgsV2 =
      ⟨none,
        { freshFS with
          constitutionMd := some "# Constitution\n\n## New Rule\nBe concise.\n" },
        1, true⟩ := by
  refine ⟨?_, ?_, ?_, by decide⟩
  · intro s
    have hdata : (appendDoc t s).data =
        ((jsTrim t).data ++ ("\n\n" : String).data ++ s.data) ++ ['\n'] := by
      simp [appendDoc, String.data_append]
    rw [hdata, List.getLast?_concat]
  · intro a2 r hq hy
    simp [handleConstitutionV2, hst, hlock, hdoc, hq, callQwen, hy, appendDoc]
  · intro a1 r hsum h0 hq hy
    cases hs : a1.summaryQwen with
    | failure => exact absurd hs hsum
    | ok rs =>
      simp [handleConstitutionV1, hst, hlock, hcfg, hdoc, hs, hq, callQwen, h0, hy,
        appendDoc]

/-- Witness for the amended C4: the spec's own worked example, obtained by
applying the theorem at the fresh project. -/
theorem C4_confirmed_edit_formula_witness :
    (handleConstitutionV2 freshFS exArgsV2).fs.constitutionMd =
      some (jsTrim "# Constitution\n" ++ "\n\n" ++
        jsTrim "## New Rule\nBe concise." ++ "\n") := by
  exact (C4_confirmed_edit_formula freshFS defaultState
    (defaultConfig "demo" "a demo project") "# Constitution\n" rfl (by decide) rfl
    rfl).2.1 exArgsV2 "## New Rule\nBe concise." rfl (by decide)

/-- **C5.** Through every sub-action and in both the confirm and the discard
branch of both drafts, the state record (the `approved` flags and `phase`),
the config and the directory layout are untouched — the outcome's filesystem
differs from the input at most in the constitution document — and the
document itself changes only when a proposal was applied on confirmation. -/
theorem C5_edit_workflow_frame (fs : FS) (a1 : ConstArgsV1) (a2 : ConstArgsV2) :
    (handleConstitutionV1 fs a1).fs =
      { fs with constitutionMd := (handleConstitutionV1 fs a1).fs.constitutionMd } ∧
    ((handleConstitutionV1 fs a1).applied = false →
        (handleConstitutionV1 fs a1).fs = fs) ∧
    (handleConstitutionV2 fs a2).fs =
      { fs with constitutionMd := (handleConstitutionV2 fs a2).fs.constitutionMd } ∧
    ((handleConstitutionV2 fs a2).applied = false →
        (handleConstitutionV2 fs a2).fs = fs) := by
  have hv1 : ((handleConstitutionV1 fs a1).applied = false ∧
      (handleConstitutionV1 fs a1).fs = fs) ∨
      ((handleConstitutionV1 fs a1).applied = true ∧ ∃ d : String,
        (handleConstitutionV1 fs a1).fs = { fs with constitutionMd := some d }) := by
    rcases v1_cases fs a1 with h | ⟨ha, _, hd⟩
    · exact Or.inl h
    · exact Or.inr ⟨ha, hd⟩
  have hv2 : ((handleConstitutionV2 fs a2).applied = false ∧
      (handleConstitutionV2 fs a2).fs = fs) ∨
      ((handleConstitutionV2 fs a2).applied = true ∧ ∃ d : String,
        (handleConstitutionV2 fs a2).fs = { fs with constitutionMd := some d }) := by
    rcases v2_cases fs a2 with h | ⟨ha, _, hd⟩
    · exact Or.inl h
    · exact Or.inr ⟨ha, hd⟩
  have h1 := frame_of_cases hv1
  have h2 := frame_of_cases hv2
  exact ⟨h1.1, h1.2, h2.1, h2.2⟩

/-- **C6.** On a project whose state record exists, `approve constitution`
and `unlock constitution` always succeed, approve sets
`approved.constitution` to true and unlock sets it to false, and each is
idempotent: running either twice in a row produces exactly the same outcome
(on-disk state included) as running it once. -/
theorem C6_approve_unlock_idempotent (fs : FS) (st : ProjectState)
    (hst : fs.stateJson = some st) :
    (handleApproveConstitution fs).error = none ∧
    (handleUnlockConstitution fs).error = none ∧
    constitutionFlag (handleApproveConstitution fs).fs = true ∧
    constitutionFlag (handleUnlockConstitution fs).fs = false ∧
    handleApproveConstitution (handleApproveConstitution fs).fs =
      handleApproveConstitution fs ∧
    handleUnlockConstitution (handleUnlockConstitution fs).fs =
      handleUnlockConstitution fs := by
  refine ⟨?_, ?_, ?_, ?_, ?_, ?_⟩ <;>
    simp [handleApproveConstitution, handleUnlockConstitution, hst, constitutionFlag,
      lookupApproved_setKey, setKey_setKey]

/-- Witness for C6 at a fresh project. -/
theorem C6_approve_unlock_idempotent_witness :
    constitutionFlag (handleApproveConstitution freshFS).fs = true ∧
    handleApproveConstitution (handleApproveConstitution freshFS).fs =
      handleApproveConstitution freshFS := by
  have h := C6_approve_unlock_idempotent freshFS defaultState rfl
  exact ⟨h.2.2.1, h.2.2.2.2.1⟩

/-- Every successful run of `handleInit` has written the default state record. -/
lemma handleInit_success (fs : FS) (a : InitArgs)
    (h : (handleInit fs a).error = none) :
    (handleInit fs a).fs.stateJson = some defaultState := by
  cases hp : a.pathArg with
  | none => simp [handleInit, hp] at h
  | some p =>
    by_cases h1 : ((fs.specaiDir || fs.dotSpecaiDir) && !a.force) = true
    · simp [handleInit, hp, h1] at h
    · by_cases h2 : writeFileSafeFails fs.configJson a.force = true
      · simp [handleInit, hp, h1, h2] at h
      · by_cases h3 : writeFileSafeFails fs.constitutionMd a.force = true
        · simp [handleInit, hp, h1, h2, h3] at h
        · by_cases h4 : writeFileSafeFails fs.stateJson a.force = true
          · simp [handleInit, hp, h1, h2, h3, h4] at h
          · simp [handleInit, hp, h1, h2, h3, h4]

/-- For any key, the initial approved map reads back false. -/
lemma lookupApproved_defaultState (p : String) :
    lookupApproved defaultState.approved p = false := by
  unfold lookupApproved defaultState
  cases h1 : p == "constitution" <;> cases h2 : p == "spec" <;>
    cases h3 : p == "plan" <;> cases h4 : p == "tasks" <;>
    simp [List.lookup, h1, h2, h3, h4]

/-- **C7 counterexample.** A successful initialization stores the default
state record, yet its approved map has no entry for the workflow phase
"implement" (nor "review"): the approved map does not cover each phase of the
workflow's fixed ordered set. -/
theorem C7_counterexample :
    (handleInit ⟨false, false, none, none, none⟩
        ⟨some "proj", false, true, false, "proj", "proj", "demo"⟩).error = none ∧
    (handleInit ⟨false, false, none, none, none⟩
        ⟨some "proj", false, true, false, "proj", "proj", "demo"⟩).fs.stateJson =
      some defaultState ∧
    "implement" ∈ workflowPhases ∧
    defaultState.approved.lookup "implement" = none := by
  exact ⟨by decide, by decide, by decide, by decide⟩

/-- **C7 (amended).** Immediately after every successful initialization the
stored state record is the default one: `phase = "constitution"`, every
approved flag reads back false, and the approved map covers exactly the four
phases constitution, spec, plan, tasks — not the full six-phase workflow
set. -/
theorem C7_initial_state (fs : FS) (a : InitArgs)
    (h : (handleInit fs a).error = none) :
    (handleInit fs a).fs.stateJson = some defaultState ∧
    defaultState.phase = "constitution" ∧
    (∀ p : String, lookupApproved defaultState.approved p = false) ∧
    defaultState.approved.map Prod.fst = ["constitution", "spec", "plan", "tasks"] := by
  exact ⟨handleInit_success fs a h, rfl, lookupApproved_defaultState, rfl⟩

/-- Witness for the amended C7 at a concrete initialization. -/
theorem C7_initial_state_witness :
    (handleInit ⟨false, false, none, none, none⟩
        ⟨some "proj", false, true, false, "proj", "proj", "demo"⟩).fs.stateJson =
      some defaultState := by
  exact (C7_initial_state ⟨false, false, none, none, none⟩
    ⟨some "proj", false, true, false, "proj", "proj", "demo"⟩ (by decide)).1

/-- **C8.** `handleStatus` reports the project as initialized exactly when
both metadata directories exist, and returns the filesystem unchanged — it
performs no state change in either case. -/
theorem C8_status_iff_both_dirs (fs : FS) :
    ((handleStatus fs).2 = true ↔ fs.specaiDir = true ∧ fs.dotSpecaiDir = true) ∧
    (handleStatus fs).1 = fs := by
  constructor
  · simp [handleStatus]
  · rfl

/-- **C9.** Whenever the generation service fails (transport failure or
non-success response), the edit workflow of either draft fails with
GenerationFailed (non-zero exit), the failing request was submitted exactly
once (no retry — the call counter equals the number of requests up to and
including the failing one), and nothing is written: the filesystem is
returned unchanged. -/
theorem C9_generation_failure_fatal (fs : FS) (st : ProjectState)
    (cfg : ProjectConfig) (t : String)
    (hst : fs.stateJson = some st)
    (hlock : lookupApproved st.approved "constitution" = false)
    (hcfg : fs.configJson = some cfg)
    (hdoc : fs.constitutionMd = some t) :
    (∀ a1 : ConstArgsV1, a1.summaryQwen = .failure →
        handleConstitutionV1 fs a1 = ⟨some .generationFailed, fs, 1, false⟩) ∧
    (∀ a1 : ConstArgsV1, ∀ r : String, a1.summaryQwen = .ok r →
        chooseIndex a1.choiceAnswer = 0 → a1.sectionQwen = .failure →
        handleConstitutionV1 fs a1 = ⟨some .generationFailed, fs, 2, false⟩) ∧
    (∀ a1 : ConstArgsV1, ∀ r : String, a1.summaryQwen = .ok r →
        chooseIndex a1.choiceAnswer = 1 → a1.questionsQwen = .failure →
        handleConstitutionV1 fs a1 = ⟨some .generationFailed, fs, 2, false⟩) ∧
    (∀ a2 : ConstArgsV2, a2.proposalQwen = .failure →
        handleConstitutionV2 fs a2 = ⟨some .generationFailed, fs, 1, false⟩) := by
  refine ⟨?_, ?_, ?_, ?_⟩
  · intro a1 hq
    simp [handleConstitutionV1, hst, hlock, hcfg, hdoc, hq, callQwen]
  · intro a1 r hs h0 hq
    simp [handleConstitutionV1, hst, hlock, hcfg, hdoc, hs, h0, hq, callQwen]
  · intro a1 r hs h1 hq
    simp [handleConstitutionV1, hst, hlock, hcfg, hdoc, hs, h1, hq, callQwen]
  · intro a2 hq
    simp [handleConstitutionV2, hst, hlock, hdoc, hq, callQwen]

/-- Witness for C9: concrete failing generation calls on a fresh project. -/
theorem C9_generation_failure_fatal_witness :
    handleConstitutionV2 freshFS ⟨.failure, "y"⟩ =
      ⟨some .generationFailed, freshFS, 1, false⟩ ∧
    handleConstitutionV1 freshFS { exArgsV1 with summaryQwen := .failure } =
      ⟨some .generationFailed, freshFS, 1, false⟩ := by
  have h := C9_generation_failure_fatal freshFS defaultState
    (defaultConfig "demo" "a demo project") "# Constitution\n" rfl (by decide) rfl rfl
  exact ⟨h.2.2.2 ⟨.failure, "y"⟩ rfl, h.1 { exArgsV1 with summaryQwen := .failure } rfl⟩

/-- **C10.** In every confirmation prompt of both drafts, a proposal is
applied only when the operator's answer, after trimming surrounding
whitespace and lower-casing, is exactly "y"; every other answer (including
"yes") declines and leaves the filesystem unchanged.  (In the first draft
`ask` trims the answer before the lower-case comparison; in the second draft
the raw answer is compared, which accepts only answers that are already the
single character "y" or "Y" — a subset, so the same property holds.) -/
theorem C10_apply_requires_exact_y (fs : FS) (a1 : ConstArgsV1) (a2 : ConstArgsV2) :
    ((handleConstitutionV1 fs a1).applied = true →
        (chooseIndex a1.choiceAnswer = 0 ∧ jsToLower (jsTrim a1.applyAnswer) = "y") ∨
        (chooseIndex a1.choiceAnswer = 2 ∧ jsToLower (jsTrim a1.appendAnswer) = "y")) ∧
    (chooseIndex a1.choiceAnswer = 0 → jsToLower (jsTrim a1.applyAnswer) ≠ "y" →
        (handleConstitutionV1 fs a1).applied = false ∧
        (handleConstitutionV1 fs a1).fs = fs) ∧
    (chooseIndex a1.choiceAnswer = 2 → jsToLower (jsTrim a1.appendAnswer) ≠ "y" →
        (handleConstitutionV1 fs a1).applied = false ∧
        (handleConstitutionV1 fs a1).fs = fs) ∧
    ((handleConstitutionV2 fs a2).applied = true →
        jsToLower (jsTrim a2.applyAnswer) = "y") ∧
    (jsToLower (jsTrim a2.applyAnswer) ≠ "y" →
        (handleConstitutionV2 fs a2).applied = false ∧
        (handleConstitutionV2 fs a2).fs = fs) := by
  refine ⟨?_, ?_, ?_, ?_, ?_⟩
  · intro ha
    rcases v1_cases fs a1 with ⟨hf, _⟩ | ⟨_, hcond, _⟩
    · rw [ha] at hf; cases hf
    · exact hcond
  · intro h0 hn
    rcases v1_cases fs a1 with ⟨hf, hfs⟩ | ⟨_, hcond, _⟩
    · exact ⟨hf, hfs⟩
    · rcases hcond with ⟨_, hy⟩ | ⟨h2, _⟩
      · exact absurd hy hn
      · rw [h0] at h2
        exact absurd h2 (by decide)
  · intro h2c hn
    rcases v1_cases fs a1 with ⟨hf, hfs⟩ | ⟨_, hcond, _⟩
    · exact ⟨hf, hfs⟩
    · rcases hcond with ⟨h0, _⟩ | ⟨_, hy⟩
      · rw [h2c] at h0
        exact absurd h0 (by decide)
      · exact absurd hy hn
  · intro ha
    rcases v2_cases fs a2 with ⟨hf, _⟩ | ⟨_, hy, _⟩
    · rw [ha] at hf; cases hf
    · exact jsToLower_trim_of_y hy
  · intro hn
    rcases v2_cases fs a2 with ⟨hf, hfs⟩ | ⟨_, hy, _⟩
    · exact ⟨hf, hfs⟩
    · exact absurd (jsToLower_trim_of_y hy) hn

/-- Witness for C10: the answer "yes" declines and leaves everything
unchanged. -/
theorem C10_apply_requires_exact_y_witness :
    (handleConstitutionV2 freshFS ⟨.ok "## Rule", "yes"⟩).applied = false ∧
    (handleConstitutionV2 freshFS ⟨.ok "## Rule", "yes"⟩).fs = freshFS := by
  exact (C10_apply_requires_exact_y freshFS exArgsV1
    ⟨.ok "## Rule", "yes"⟩).2.2.2.2 (by decide)

/-- Witness for C5: a concrete confirmed edit touches only the document. -/
theorem C5_edit_workflow_frame_witness :
    (handleConstitutionV2 freshFS exArgsV2).fs =
      { freshFS with
        constitutionMd := (handleConstitutionV2 freshFS exArgsV2).fs.constitutionMd } := by
  exact (C5_edit_workflow_frame freshFS exArgsV1 exArgsV2).2.2.1

/-- Witness for C8 on an initialized project. -/
theorem C8_status_iff_both_dirs_witness :
    (handleStatus freshFS).2 = true ∧ (handleStatus freshFS).1 = freshFS := by
  have h := C8_status_iff_both_dirs freshFS
  exact ⟨h.1.mpr ⟨rfl, rfl⟩, h.2⟩
